import Mathlib

/-!
Shallow embedding of the round-lifecycle and settlement core of the
myteer betting backend, together with proofs about its behaviour.

Sources embedded:
  * src/models/Round.js, src/models/House.js, src/models/Transaction.js,
    and the Bet schema (betEntrySchema / betSchema) — the data model;
  * src/routes/rounds.js — updateRoundStatus, the result-recording route
    (PUT /:id/result), calculateWinners, checkWinner, calculateWinAmount,
    and the status initialisation of the round-creation route (POST /);
  * src/services/roundScheduler.js (the single-deadline variant) —
    updateRoundStatuses (per-round body), autoCreateRoundForHouse,
    autoCreateRounds, combineDateAndTime, getTomorrowDate;
  * the bet-placement route (POST /api/bets/place) — placeBet.

Modelling conventions:
  * Instants are integers counting minutes since the Unix epoch; a calendar
    date is the integer day count (day 0 = 1970-01-01, a Thursday), and
    `dayOfWeek` mirrors JavaScript getDay (0 = Sunday .. 6 = Saturday).
  * Money amounts, balances and payout rates are integers (JS numbers in
    the source; this embedding covers the whole-unit amounts, on which the
    2-decimal-place validation `Number.isInteger(amount * 100)` always
    passes — see `jsTwoDecimals`).
  * A JS field that may be `undefined` is an `Option`; comparison operators
    applied to `undefined` yield `false` (NaN semantics), which the `js*`
    helpers encode.
  * Database documents live in plain lists; `save` is replacement by id,
    `create` appends and bumps a fresh-id counter.  A thrown exception is
    an `Except.error`; mongoose `required` schema paths are validated at
    creation time.
-/

/-- Sub-game status enum of the Round schema (`frStatus` / `srStatus` /
`forecastStatus`); `notAvailable` is the legacy default of `srStatus` in the
schema, never produced by any modelled operation. -/
inductive GameStatus
  | pending
  | live
  | finished
  | notAvailable
deriving DecidableEq, Repr

/-- Overall round status enum (`status` field of the Round schema). -/
inductive RoundStatus
  | pending
  | live
  | frClosed
  | srClosed
  | finished
deriving DecidableEq, Repr

/-- Bet status enum of the Bet schema. -/
inductive BetStatus
  | pending
  | won
  | lost
deriving DecidableEq, Repr

/-- Play type enum of the bet-entry schema. -/
inductive PlayType
  | direct
  | house
  | ending
deriving DecidableEq, Repr

/-- Sub-game selector of a bet entry (`mode` field). -/
inductive Mode
  | fr
  | sr
  | forecast
deriving DecidableEq, Repr

/-- Transaction type enum of src/models/Transaction.js. -/
inductive TxType
  | deposit
  | withdrawal
  | withdrawalPending
  | withdrawalApproved
  | withdrawalRefund
  | bet
  | win
  | refund
deriving DecidableEq, Repr

/-- Transaction status enum. -/
inductive TxStatus
  | pending
  | completed
  | failed
deriving DecidableEq, Repr

/-- House document (src/models/House.js): payout rates, daily deadline
time-of-day (HH:MM split into hour/minute), operating weekdays, flags. -/
structure House where
  id : Nat
  name : String
  frDirectRate : Int
  frHouseRate : Int
  frEndingRate : Int
  srDirectRate : Int
  srHouseRate : Int
  srEndingRate : Int
  forecastDirectRate : Int
  forecastHouseRate : Int
  forecastEndingRate : Int
  deadlineHour : Nat
  deadlineMin : Nat
  autoCreateRounds : Bool
  operatingDays : List Int
  isActive : Bool
deriving DecidableEq, Repr

/-- Round document (src/models/Round.js).  The schema has a single
`deadline` instant plus a display-only `deadlineTime` (HH:MM, required);
there is no `frDeadline` / `srDeadline` field. -/
structure Round where
  id : Nat
  house : Nat
  date : Int
  deadline : Int
  deadlineTimeH : Nat
  deadlineTimeM : Nat
  frResultTime : Option Int
  srResultTime : Option Int
  frResult : Option Int
  srResult : Option Int
  status : RoundStatus
  frStatus : GameStatus
  srStatus : GameStatus
  forecastStatus : GameStatus
deriving DecidableEq, Repr

/-- Bet entry (betEntrySchema): `number` is used by FR/SR entries, the
`frNumber`/`srNumber` pair by FORECAST entries; all are optional paths. -/
structure BetEntry where
  number : Option Int
  frNumber : Option Int
  srNumber : Option Int
  amount : Int
  playType : PlayType
  mode : Mode
  potentialWin : Int
  isWinner : Bool
  winAmount : Int
deriving DecidableEq, Repr

/-- Bet document (betSchema). -/
structure Bet where
  id : Nat
  user : Nat
  house : Nat
  round : Nat
  entries : List BetEntry
  totalAmount : Int
  status : BetStatus
  totalWinAmount : Int
deriving DecidableEq, Repr

/-- User document, reduced to the balance field the core mutates. -/
structure User where
  id : Nat
  balance : Int
deriving DecidableEq, Repr

/-- Transaction document (src/models/Transaction.js). -/
structure Transaction where
  user : Nat
  type : TxType
  amount : Int
  balanceBefore : Int
  balanceAfter : Int
  description : String
  relatedBet : Option Nat
  status : TxStatus
deriving DecidableEq, Repr

/-- The persistent store: one collection per document type plus a fresh-id
counter used when creating Bets and Rounds. -/
structure DB where
  houses : List House
  rounds : List Round
  users : List User
  bets : List Bet
  transactions : List Transaction
  nextId : Nat
deriving DecidableEq, Repr

def findHouse (db : DB) (i : Nat) : Option House :=
  db.houses.find? (fun h => decide (h.id = i))

def findRound (db : DB) (i : Nat) : Option Round :=
  db.rounds.find? (fun r => decide (r.id = i))

def findUser (db : DB) (i : Nat) : Option User :=
  db.users.find? (fun u => decide (u.id = i))

def findBet (db : DB) (i : Nat) : Option Bet :=
  db.bets.find? (fun b => decide (b.id = i))

/-- `round.save()`: replace the stored document with the mutated one. -/
def saveRound (db : DB) (r : Round) : DB :=
  { db with rounds := db.rounds.map (fun x => if x.id = r.id then r else x) }

/-- `bet.save()`. -/
def saveBet (db : DB) (b : Bet) : DB :=
  { db with bets := db.bets.map (fun x => if x.id = b.id then b else x) }

/-- `user.save()`. -/
def saveUser (db : DB) (u : User) : DB :=
  { db with users := db.users.map (fun x => if x.id = u.id then u else x) }

/-- JS `now >= d` where `d` may be `undefined`: any relational comparison
with `undefined` is a NaN comparison and yields `false`. -/
def jsGeU (now : Int) : Option Int → Bool
  | some d => decide (now ≥ d)
  | none => false

/-- JS `x < c` where `x` may be `undefined` (false on `undefined`). -/
def jsLtU (x : Option Int) (c : Int) : Bool :=
  match x with
  | some v => decide (v < c)
  | none => false

/-- JS `x > c` where `x` may be `undefined` (false on `undefined`). -/
def jsGtU (x : Option Int) (c : Int) : Bool :=
  match x with
  | some v => decide (v > c)
  | none => false

/-- JS strict equality `x === v` where `x` may be `undefined`. -/
def jsEqNum (x : Option Int) (v : Int) : Bool :=
  match x with
  | some n => decide (n = v)
  | none => false

/-- The bets route reads `round.frDeadline`, a field that does not exist in
the Round schema (src/models/Round.js has only `deadline`), so the value is
always `undefined`. -/
def Round.frDeadline (_ : Round) : Option Int := none

/-- Likewise `round.srDeadline` is absent from the schema. -/
def Round.srDeadline (_ : Round) : Option Int := none

/-! ### Deadline evaluator — updateRoundStatus (src/routes/rounds.js 11-99) -/

/-- Per-sub-game status rule of updateRoundStatus: result set → finished;
else deadline passed → live; else pending. -/
def evalGame (result : Option Int) (passed : Bool) : GameStatus :=
  if result.isSome then GameStatus.finished
  else if passed then GameStatus.live
  else GameStatus.pending

/-- Forecast status rule: finished only when BOTH results are set. -/
def evalForecast (frR srR : Option Int) (passed : Bool) : GameStatus :=
  if frR.isSome && srR.isSome then GameStatus.finished
  else if passed then GameStatus.live
  else GameStatus.pending

/-- Overall status rule (compatibility field). -/
def evalOverall (frR srR : Option Int) (passed : Bool) : RoundStatus :=
  if frR.isSome && srR.isSome then RoundStatus.finished
  else if passed then RoundStatus.live
  else RoundStatus.pending

/-- updateRoundStatus: recompute every status field from the current time;
the route saves the document iff something changed, which yields the same
stored record either way. -/
def updateRoundStatus (now : Int) (r : Round) : Round :=
  let passed := decide (now ≥ r.deadline)
  { r with
    frStatus := evalGame r.frResult passed
    srStatus := evalGame r.srResult passed
    forecastStatus := evalForecast r.frResult r.srResult passed
    status := evalOverall r.frResult r.srResult passed }

/-! ### Scheduler status tick — updateRoundStatuses per-round body
(src/services/roundScheduler.js 296-353, single-deadline variant) -/

/-- One round's update inside updateRoundStatuses: each game status moves
pending → live when the deadline has passed; the overall status is then
recomputed; the document is saved only when one of the three game-status
transitions fired (an overall-status-only change is not persisted). -/
def schedulerUpdateRound (now : Int) (r0 : Round) : Round :=
  let passed := decide (now ≥ r0.deadline)
  let fire1 := decide (r0.frStatus = GameStatus.pending) && passed
  let fire2 := decide (r0.srStatus = GameStatus.pending) && passed
  let fire3 := decide (r0.forecastStatus = GameStatus.pending) && passed
  let r1 := { r0 with
    frStatus := if fire1 then GameStatus.live else r0.frStatus
    srStatus := if fire2 then GameStatus.live else r0.srStatus
    forecastStatus := if fire3 then GameStatus.live else r0.forecastStatus }
  let newStatus :=
    if r1.frResult.isSome && r1.srResult.isSome then RoundStatus.finished
    else if decide (r1.frStatus = GameStatus.live) || decide (r1.srStatus = GameStatus.live)
            || decide (r1.forecastStatus = GameStatus.live) then RoundStatus.live
    else RoundStatus.pending
  let r2 := { r1 with status := newStatus }
  if fire1 || fire2 || fire3 then r2 else r0

/-! ### Settlement helpers (src/routes/rounds.js 616-668) -/

/-- checkWinner(entry, result, house): the two-digit padded strings of the
result and of the bet number are compared per play type; for numbers in
0-99 the first/last characters agree exactly when the quotients/remainders
by 10 do (every producer keeps these values in 0-99: schema min/max plus
the 0-99 route validations).  When `entry.number` is `undefined` the source
throws a TypeError at `entry.number.toString()`, before the switch. -/
def checkWinner (e : BetEntry) (result : Int) : Except Unit Bool :=
  match e.number with
  | none => Except.error ()
  | some n =>
    Except.ok (match e.playType with
      | PlayType.direct => decide (n = result)
      | PlayType.house => decide (result / 10 = n / 10)
      | PlayType.ending => decide (result % 10 = n % 10))

/-- calculateWinAmount(entry, house, mode): look up the house rate for the
entry's play type in the given sub-game.  `house` is the populated Bet
reference and may be null, in which case reading a rate throws; for any
mode other than FR/SR the rate stays 0 and nothing is read. -/
def calculateWinAmount (e : BetEntry) (house? : Option House) (mode : Mode) :
    Except Unit Int :=
  match mode with
  | Mode.fr =>
    match house? with
    | none => Except.error ()
    | some h =>
      Except.ok (e.amount * (match e.playType with
        | PlayType.direct => h.frDirectRate
        | PlayType.house => h.frHouseRate
        | PlayType.ending => h.frEndingRate))
  | Mode.sr =>
    match house? with
    | none => Except.error ()
    | some h =>
      Except.ok (e.amount * (match e.playType with
        | PlayType.direct => h.srDirectRate
        | PlayType.house => h.srHouseRate
        | PlayType.ending => h.srEndingRate))
  | Mode.forecast => Except.ok (e.amount * 0)

/-- Reading a forecast rate off the populated house (null access throws). -/
def forecastRate (house? : Option House) (sel : House → Int) : Except Unit Int :=
  match house? with
  | none => Except.error ()
  | some h => Except.ok (sel h)

/-! ### Winner calculation — calculateWinners (src/routes/rounds.js 492-613) -/

/-- The per-entry body of the settlement loop: evaluate one entry against
the round's results, returning the updated entry (isWinner / winAmount are
written on every entry), its win amount, its winner flag, and whether the
entry could be processed (false keeps the whole Bet pending).  A thrown
exception (missing entry number on an FR/SR entry, or a rate read on a
null populated house) propagates. -/
def evalEntry (round : Round) (house? : Option House) (e : BetEntry) :
    Except Unit (BetEntry × Int × Bool × Bool) :=
  match e.mode with
  | Mode.fr =>
    match round.frResult with
    | some res =>
      match checkWinner e res with
      | Except.error u => Except.error u
      | Except.ok isW =>
        if isW then
          match calculateWinAmount e house? Mode.fr with
          | Except.error u => Except.error u
          | Except.ok w => Except.ok ({ e with isWinner := true, winAmount := w }, w, true, true)
        else Except.ok ({ e with isWinner := false, winAmount := 0 }, 0, false, true)
    | none => Except.ok ({ e with isWinner := false, winAmount := 0 }, 0, false, false)
  | Mode.sr =>
    match round.srResult with
    | some res =>
      match checkWinner e res with
      | Except.error u => Except.error u
      | Except.ok isW =>
        if isW then
          match calculateWinAmount e house? Mode.sr with
          | Except.error u => Except.error u
          | Except.ok w => Except.ok ({ e with isWinner := true, winAmount := w }, w, true, true)
        else Except.ok ({ e with isWinner := false, winAmount := 0 }, 0, false, true)
    | none => Except.ok ({ e with isWinner := false, winAmount := 0 }, 0, false, false)
  | Mode.forecast =>
    match round.frResult, round.srResult with
    | some fr, some sr =>
      match e.playType with
      | PlayType.direct =>
        if jsEqNum e.frNumber fr && jsEqNum e.srNumber sr then
          match forecastRate house? (fun h => h.forecastDirectRate) with
          | Except.error u => Except.error u
          | Except.ok rate =>
            Except.ok ({ e with isWinner := true, winAmount := e.amount * rate },
              e.amount * rate, true, true)
        else Except.ok ({ e with isWinner := false, winAmount := 0 }, 0, false, true)
      | PlayType.house =>
        if jsEqNum e.frNumber (fr / 10) && jsEqNum e.srNumber (sr / 10) then
          match forecastRate house? (fun h => h.forecastHouseRate) with
          | Except.error u => Except.error u
          | Except.ok rate =>
            Except.ok ({ e with isWinner := true, winAmount := e.amount * rate },
              e.amount * rate, true, true)
        else Except.ok ({ e with isWinner := false, winAmount := 0 }, 0, false, true)
      | PlayType.ending =>
        if jsEqNum e.frNumber (fr % 10) && jsEqNum e.srNumber (sr % 10) then
          match forecastRate house? (fun h => h.forecastEndingRate) with
          | Except.error u => Except.error u
          | Except.ok rate =>
            Except.ok ({ e with isWinner := true, winAmount := e.amount * rate },
              e.amount * rate, true, true)
        else Except.ok ({ e with isWinner := false, winAmount := 0 }, 0, false, true)
    | _, _ => Except.ok ({ e with isWinner := false, winAmount := 0 }, 0, false, false)

/-- Fold of evalEntry over a Bet's entries, accumulating the rewritten
entries, totalWinAmount, hasWinner and canFinalizeBet exactly as the
source loop does. -/
def evalEntries (round : Round) (house? : Option House) :
    List BetEntry → Except Unit (List BetEntry × Int × Bool × Bool)
  | [] => Except.ok ([], 0, false, true)
  | e :: es =>
    match evalEntry round house? e with
    | Except.error u => Except.error u
    | Except.ok (e', w, isW, fin) =>
      match evalEntries round house? es with
      | Except.error u => Except.error u
      | Except.ok (es', tw, hw, cf) => Except.ok (e' :: es', w + tw, isW || hw, fin && cf)

/-- State threaded through a settlement pass: the database written so far,
plus a counter of persistence-layer operations already performed (used to
inject a fault at the k-th operation; operation 0 is the initial Bet.find).
A fault of `none` models the fault-free run. -/
structure PassSt where
  db : DB
  k : Nat
deriving DecidableEq, Repr

/-- Settle one pending Bet (the per-bet body of calculateWinners).  When
every entry was processable the Bet is saved as won/lost and, for a
winner, the user is credited and a win Transaction appended; otherwise the
Bet stays pending and nothing is written.  `Except.error` carries the
state at the moment an exception was thrown (outer catch keeps it). -/
def settleBet (fault : Option Nat) (round : Round) (st : PassSt)
    (p : Bet × Option House) : Except PassSt PassSt :=
  match evalEntries round p.2 p.1.entries with
  | Except.error _ => Except.error st
  | Except.ok (es, tw, hw, cf) =>
    if cf then
      let newBetStatus := if hw then BetStatus.won else BetStatus.lost
      let bet' := { p.1 with entries := es, totalWinAmount := tw, status := newBetStatus }
      if fault = some st.k then Except.error { db := st.db, k := st.k + 1 }
      else
        let st1 : PassSt := { db := saveBet st.db bet', k := st.k + 1 }
        if hw && decide (tw > 0) then
          if fault = some st1.k then Except.error { db := st1.db, k := st1.k + 1 }
          else
            match findUser st1.db p.1.user with
            | none => Except.ok { db := st1.db, k := st1.k + 1 }
            | some u =>
              if fault = some (st1.k + 1) then
                Except.error { db := st1.db, k := st1.k + 2 }
              else
                let db2 := saveUser st1.db { u with balance := u.balance + tw }
                match p.2 with
                | none => Except.error { db := db2, k := st1.k + 2 }
                | some h =>
                  if fault = some (st1.k + 2) then
                    Except.error { db := db2, k := st1.k + 3 }
                  else
                    let tx : Transaction :=
                      { user := u.id, type := TxType.win, amount := tw,
                        balanceBefore := u.balance, balanceAfter := u.balance + tw,
                        description := "Won bet on " ++ h.name,
                        relatedBet := some p.1.id, status := TxStatus.completed }
                    Except.ok { db := { db2 with transactions := db2.transactions ++ [tx] },
                                k := st1.k + 3 }
        else Except.ok st1
    else Except.ok st

/-- The settlement loop over the pending Bets (with their populated
houses); a thrown exception aborts the remainder of the loop. -/
def settleBets (fault : Option Nat) (round : Round) :
    PassSt → List (Bet × Option House) → Except PassSt PassSt
  | st, [] => Except.ok st
  | st, p :: ps =>
    match settleBet fault round st p with
    | Except.error st' => Except.error st'
    | Except.ok st' => settleBets fault round st' ps

/-- The catch of calculateWinners: whether or not the pass threw, the
state written so far is what remains (the error is only logged). -/
def passResult : Except PassSt PassSt → PassSt
  | Except.ok st => st
  | Except.error st => st

/-- calculateWinners(round): load the still-pending Bets of the round with
their houses populated, settle each; every exception is caught and only
logged (operation 0 faulting models Bet.find itself throwing). -/
def calculateWinners (fault : Option Nat) (db : DB) (round : Round) : DB :=
  if fault = some 0 then db
  else
    let pending := db.bets.filter
      (fun b => decide (b.round = round.id ∧ b.status = BetStatus.pending))
    let withHouses := pending.map (fun b => (b, findHouse db b.house))
    (passResult (settleBets fault round { db := db, k := 1 } withHouses)).db

/-! ### Result recording — PUT /api/rounds/:id/result (src/routes/rounds.js 412-489) -/

/-- The in-memory mutation of the Round by the result route: each supplied
result is stored with a fresh result-time stamp and that game marked
finished; when both results are then present the forecast and overall
statuses become finished. -/
def applyResultUpdate (now : Int) (fr? sr? : Option Int) (r : Round) : Round :=
  let r1 := match fr? with
    | some v => { r with frResult := some v, frResultTime := some now,
                         frStatus := GameStatus.finished }
    | none => r
  let r2 := match sr? with
    | some v => { r1 with srResult := some v, srResultTime := some now,
                          srStatus := GameStatus.finished }
    | none => r1
  if r2.frResult.isSome && r2.srResult.isSome then
    { r2 with forecastStatus := GameStatus.finished, status := RoundStatus.finished }
  else r2

/-- Range validation of a submitted result (0-99; absent passes). -/
def badResult : Option Int → Bool
  | none => false
  | some v => decide (v < 0) || decide (v > 99)

/-! ### Scheduler date helpers and round creation
(src/services/roundScheduler.js 249-275 and the Round schema) -/

/-- getTomorrowDate: the day index of the day after `now`. -/
def tomorrowDay (now : Int) : Int := now.fdiv 1440 + 1

/-- Midnight instant of a day index. -/
def dayStart (day : Int) : Int := day * 1440

/-- JS getDay on a day index (day 0 = 1970-01-01 was a Thursday;
0 = Sunday .. 6 = Saturday). -/
def dayOfWeek (day : Int) : Int := (day + 4) % 7

/-- combineDateAndTime (single-deadline variant): midnight of the day plus
the HH:MM house deadline time, shifted from IST to UTC (minus 5h30). -/
def combineDateAndTime (day : Int) (h m : Nat) : Int :=
  dayStart day + (h * 60 + m : Nat) - 330

/-- The fields passed to Round.create.  The schema (src/models/Round.js)
marks house, date, deadline and deadlineTime required; both creation sites
always pass the first three, so only the presence of deadlineTime is
tracked. -/
structure RoundCreateArgs where
  house : Nat
  date : Int
  deadline : Int
  deadlineTime : Option (Nat × Nat)
  status : RoundStatus
  frStatus : GameStatus
  srStatus : GameStatus
  forecastStatus : GameStatus
deriving DecidableEq, Repr

/-- Round.create: mongoose validates required schema paths before
inserting; a missing deadlineTime rejects with a ValidationError. -/
def roundCreate (db : DB) (a : RoundCreateArgs) : Except Unit (DB × Round) :=
  match a.deadlineTime with
  | none => Except.error ()
  | some dt =>
    let r : Round :=
      { id := db.nextId, house := a.house, date := a.date, deadline := a.deadline,
        deadlineTimeH := dt.1, deadlineTimeM := dt.2,
        frResultTime := none, srResultTime := none,
        frResult := none, srResult := none,
        status := a.status, frStatus := a.frStatus,
        srStatus := a.srStatus, forecastStatus := a.forecastStatus }
    Except.ok ({ db with rounds := db.rounds ++ [r], nextId := db.nextId + 1 }, r)

/-- autoCreateRoundForHouse (src/services/roundScheduler.js 362-418):
consider only tomorrow; skip the house when it is missing, inactive,
auto-create is off, tomorrow is not an operating weekday, or a round for
tomorrow already exists; otherwise call Round.create — whose field object
omits the required deadlineTime path, so the create is rejected and the
error is caught and logged. -/
def autoCreateRoundForHouse (now : Int) (db : DB) (houseId : Nat) : DB :=
  let tomorrow := tomorrowDay now
  match findHouse db houseId with
  | none => db
  | some house =>
    if ¬(house.isActive && house.autoCreateRounds) then db
    else if ¬(house.operatingDays.any (fun d => decide (d = dayOfWeek tomorrow))) then db
    else if db.rounds.any (fun r => decide (r.house = houseId ∧
              dayStart tomorrow ≤ r.date ∧ r.date < dayStart tomorrow + 1440)) then db
    else
      match roundCreate db
        { house := houseId, date := dayStart tomorrow,
          deadline := combineDateAndTime tomorrow house.deadlineHour house.deadlineMin,
          deadlineTime := none,
          status := RoundStatus.pending, frStatus := GameStatus.pending,
          srStatus := GameStatus.pending, forecastStatus := GameStatus.pending } with
      | Except.error _ => db
      | Except.ok (db', _) => db'

/-- autoCreateRounds (src/services/roundScheduler.js 420-474): the daily
batch job; the per-house body repeats the body of autoCreateRoundForHouse
inline over every active house with auto-create enabled (the inactive /
disabled filter sits in the House.find query). -/
def autoCreateRounds (now : Int) (db : DB) : DB :=
  let tomorrow := tomorrowDay now
  let houses := db.houses.filter (fun h => h.isActive && h.autoCreateRounds)
  houses.foldl (fun acc house =>
    if ¬(house.operatingDays.any (fun d => decide (d = dayOfWeek tomorrow))) then acc
    else if acc.rounds.any (fun r => decide (r.house = house.id ∧
              dayStart tomorrow ≤ r.date ∧ r.date < dayStart tomorrow + 1440)) then acc
    else
      match roundCreate acc
        { house := house.id, date := dayStart tomorrow,
          deadline := combineDateAndTime tomorrow house.deadlineHour house.deadlineMin,
          deadlineTime := none,
          status := RoundStatus.pending, frStatus := GameStatus.pending,
          srStatus := GameStatus.pending, forecastStatus := GameStatus.pending } with
      | Except.error _ => acc
      | Except.ok (db', _) => db') db

/-- Response of the result route. -/
inductive RouteResult
  | ok (msg : String)
  | err (code : Nat) (msg : String)
deriving DecidableEq, Repr

/-- PUT /api/rounds/:id/result: validate the submitted results, persist
the mutated Round, run calculateWinners (all of whose errors are caught),
and when both results are now set fire autoCreateRoundForHouse (whose
errors are also swallowed); then answer success. -/
def recordResultRoute (fault : Option Nat) (now : Int) (db : DB) (rid : Nat)
    (fr? sr? : Option Int) : DB × RouteResult :=
  match findRound db rid with
  | none => (db, RouteResult.err 404 "Round not found")
  | some r =>
    if badResult fr? then (db, RouteResult.err 400 "FR result must be between 0 and 99")
    else if badResult sr? then (db, RouteResult.err 400 "SR result must be between 0 and 99")
    else
      let r' := applyResultUpdate now fr? sr? r
      let db1 := saveRound db r'
      let db2 := calculateWinners fault db1 r'
      let db3 := if r'.frResult.isSome && r'.srResult.isSome
                 then autoCreateRoundForHouse now db2 r'.house else db2
      (db3, RouteResult.ok "Results updated and winners calculated")

/-! ### Admin round creation — POST /api/rounds (src/routes/rounds.js 297-410) -/

/-- Initial statuses of an admin-created round: everything live when the
deadline has already passed, else everything pending (never finished). -/
def adminInitialStatuses (now deadline : Int) :
    RoundStatus × GameStatus × GameStatus × GameStatus :=
  if now ≥ deadline then
    (RoundStatus.live, GameStatus.live, GameStatus.live, GameStatus.live)
  else
    (RoundStatus.pending, GameStatus.pending, GameStatus.pending, GameStatus.pending)

/-- The Round.create call of the admin route, which always passes the
house deadline time, so validation succeeds (the house-existence and
duplicate-date checks of the route precede this and do not change the
created record). -/
def adminCreateRound (now : Int) (db : DB) (houseId : Nat) (date deadline : Int)
    (dtH dtM : Nat) : Except Unit (DB × Round) :=
  let s := adminInitialStatuses now deadline
  roundCreate db
    { house := houseId, date := date, deadline := deadline,
      deadlineTime := some (dtH, dtM),
      status := s.1, frStatus := s.2.1, srStatus := s.2.2.1, forecastStatus := s.2.2.2 }

/-! ### Bet placement — POST /api/bets/place -/

/-- Injected failure point after the balance debit in placeBet. -/
inductive PlaceFault
  | betCreate
  | txCreate
deriving DecidableEq, Repr

/-- Response of the bet-placement route. -/
inductive PlaceResult
  | ok (betId : Nat) (newBalance : Int)
  | err (code : Nat) (msg : String)
deriving DecidableEq, Repr

/-- `Number.isInteger(amount * 100)`: on the integral amounts of this
embedding the check always passes (fractional amounts lie outside it). -/
def jsTwoDecimals (_ : Int) : Bool := true

/-- Per-entry number and amount validations of placeBet (range, min, max,
two decimal places); `entry.number` may be `undefined`, in which case the
JS range comparisons are both false and the check passes. -/
def validateEntryNum (e : BetEntry) : Option (Nat × String) :=
  if jsLtU e.number 0 || jsGtU e.number 99 then
    some (400, "Bet number must be between 0 and 99")
  else if e.amount < 10 then some (400, "Minimum bet amount is ₹10")
  else if e.amount > 100000 then some (400, "Maximum bet amount is ₹1,00,000")
  else if ¬(jsTwoDecimals e.amount = true) then
    some (400, "Bet amount can have maximum 2 decimal places")
  else none

/-- Per-entry timing gate of placeBet: FR/FORECAST entries need overall
status pending/live and `now < round.frDeadline`; SR entries need
pending/live/fr_closed and `now < round.srDeadline`.  Both deadline fields
are absent from the Round schema, so those comparisons never fire. -/
def validateEntry (now : Int) (round : Round) (e : BetEntry) : Option (Nat × String) :=
  if e.mode = Mode.fr ∨ e.mode = Mode.forecast then
    if ¬(round.status = RoundStatus.pending ∨ round.status = RoundStatus.live) then
      some (400, "First round betting is closed")
    else if jsGeU now round.frDeadline then
      some (400, "First round betting time has expired")
    else validateEntryNum e
  else if e.mode = Mode.sr then
    if ¬(round.status = RoundStatus.pending ∨ round.status = RoundStatus.live
         ∨ round.status = RoundStatus.frClosed) then
      some (400, "Second round betting is closed")
    else if jsGeU now round.srDeadline then
      some (400, "Second round betting time has expired")
    else validateEntryNum e
  else validateEntryNum e

/-- The validation loop returns the first entry error, if any. -/
def firstEntryErr (now : Int) (round : Round) : List BetEntry → Option (Nat × String)
  | [] => none
  | e :: es =>
    match validateEntry now round e with
    | some er => some er
    | none => firstEntryErr now round es

/-- The rate used for an entry's potential win in placeBet. -/
def rateFor (house : House) (e : BetEntry) : Int :=
  match e.mode, e.playType with
  | Mode.fr, PlayType.direct => house.frDirectRate
  | Mode.fr, PlayType.house => house.frHouseRate
  | Mode.fr, PlayType.ending => house.frEndingRate
  | Mode.sr, PlayType.direct => house.srDirectRate
  | Mode.sr, PlayType.house => house.srHouseRate
  | Mode.sr, PlayType.ending => house.srEndingRate
  | Mode.forecast, PlayType.direct => house.forecastDirectRate
  | Mode.forecast, PlayType.house => house.forecastHouseRate
  | Mode.forecast, PlayType.ending => house.forecastEndingRate

/-- POST /api/bets/place.  Validation in source order; then the user's
balance is debited and saved, the Bet created, and the stake Transaction
appended.  A fault injected after the debit reaches the route's catch,
which answers 500 without any compensating credit — the debit stays. -/
def placeBet (fault : Option PlaceFault) (now : Int) (db : DB)
    (userId houseId roundId : Nat) (entries : List BetEntry) : DB × PlaceResult :=
  if entries.isEmpty then
    (db, PlaceResult.err 400 "House, round, and bet entries are required")
  else if entries.length > 100 then
    (db, PlaceResult.err 400 "Maximum 100 numbers allowed per bet")
  else
    match findHouse db houseId with
    | none => (db, PlaceResult.err 404 "House not found or inactive")
    | some house =>
      if ¬house.isActive then (db, PlaceResult.err 404 "House not found or inactive")
      else
        match findRound db roundId with
        | none => (db, PlaceResult.err 404 "Round not found")
        | some round =>
          match firstEntryErr now round entries with
          | some er => (db, PlaceResult.err er.1 er.2)
          | none =>
            let entries' := entries.map
              (fun e => { e with potentialWin := e.amount * rateFor house e })
            let totalAmount := (entries.map (fun e => e.amount)).sum
            match findUser db userId with
            | none => (db, PlaceResult.err 500 "Cannot read properties of null")
            | some user =>
              if user.balance < totalAmount then
                (db, PlaceResult.err 400 "Insufficient balance")
              else
                let balanceBefore := user.balance
                let db1 := saveUser db { user with balance := user.balance - totalAmount }
                if fault = some PlaceFault.betCreate then
                  (db1, PlaceResult.err 500 "Bet creation failed")
                else
                  let bet : Bet :=
                    { id := db1.nextId, user := userId, house := houseId,
                      round := roundId, entries := entries', totalAmount := totalAmount,
                      status := BetStatus.pending, totalWinAmount := 0 }
                  let db2 := { db1 with bets := db1.bets ++ [bet], nextId := db1.nextId + 1 }
                  if fault = some PlaceFault.txCreate then
                    (db2, PlaceResult.err 500 "Transaction creation failed")
                  else
                    let tx : Transaction :=
                      { user := userId, type := TxType.bet, amount := -totalAmount,
                        balanceBefore := balanceBefore,
                        balanceAfter := balanceBefore - totalAmount,
                        description := "Bet placed on " ++ house.name,
                        relatedBet := some bet.id, status := TxStatus.completed }
                    let db3 := { db2 with transactions := db2.transactions ++ [tx] }
                    (db3, PlaceResult.ok bet.id (balanceBefore - totalAmount))

/-! ### Statement-level notions used by the properties below -/

/-- The forecast-finished invariant of a Round: a finished forecast status
implies both results are recorded. -/
def RoundInv (r : Round) : Prop :=
  r.forecastStatus = GameStatus.finished → r.frResult.isSome ∧ r.srResult.isSome

instance (r : Round) : Decidable (RoundInv r) := by
  unfold RoundInv; infer_instance

/-- The round-level effect of each core operation: the eager status
evaluator on reads, the scheduler status tick, and the result-route
mutation (the rest of the result route does not touch the Round fields). -/
inductive RoundOp
  | evalStatus (now : Int)
  | schedTick (now : Int)
  | record (fr? sr? : Option Int) (now : Int)
deriving DecidableEq, Repr

def applyRoundOp : RoundOp → Round → Round
  | RoundOp.evalStatus now, r => updateRoundStatus now r
  | RoundOp.schedTick now, r => schedulerUpdateRound now r
  | RoundOp.record fr? sr? now, r => applyResultUpdate now fr? sr? r

def applyRoundOps (ops : List RoundOp) (r : Round) : Round :=
  ops.foldl (fun r op => applyRoundOp op r) r

/-- Forward order of sub-game statuses (pending → live → finished). -/
def rank : GameStatus → Nat
  | GameStatus.pending => 0
  | GameStatus.live => 1
  | GameStatus.finished => 2
  | GameStatus.notAvailable => 0

/-- Whether an Except carries a value (the settlement pass did not throw). -/
def isOkE {α β : Type} : Except α β → Bool
  | Except.ok _ => true
  | Except.error _ => false

/-- Every pending Bet of the given round evaluates without a thrown
exception under the round's results (its FR/SR entries carry numbers, and
its populated house is present whenever a winning rate is read). -/
def EvalOkDB (round : Round) (db : DB) : Prop :=
  ∀ b ∈ db.bets, b.status = BetStatus.pending → b.round = round.id →
    isOkE (evalEntries round (findHouse db b.house) b.entries) = true

/-- An entry that cannot be evaluated yet: its sub-game's result (or, for
a forecast entry, one of the two results) is still missing. -/
def Unresolvable (round : Round) (e : BetEntry) : Prop :=
  (e.mode = Mode.fr ∧ round.frResult = none)
  ∨ (e.mode = Mode.sr ∧ round.srResult = none)
  ∨ (e.mode = Mode.forecast ∧ (round.frResult = none ∨ round.srResult = none))

instance (round : Round) (e : BetEntry) : Decidable (Unresolvable round e) := by
  unfold Unresolvable; infer_instance

/-! ### Concrete scenario fixtures -/

/-- A house with the default rates (FR DIRECT pays 80, forecast DIRECT
pays 400), operating Monday-Saturday. -/
def houseA : House :=
  { id := 1, name := "Shillong", frDirectRate := 80, frHouseRate := 16,
    frEndingRate := 16, srDirectRate := 70, srHouseRate := 14, srEndingRate := 14,
    forecastDirectRate := 400, forecastHouseRate := 40, forecastEndingRate := 40,
    deadlineHour := 18, deadlineMin := 0, autoCreateRounds := true,
    operatingDays := [1, 2, 3, 4, 5, 6], isActive := true }

/-- A pending round of houseA with no results yet (deadline at t = 100). -/
def roundA : Round :=
  { id := 2, house := 1, date := 0, deadline := 100, deadlineTimeH := 18,
    deadlineTimeM := 0, frResultTime := none, srResultTime := none,
    frResult := none, srResult := none, status := RoundStatus.pending,
    frStatus := GameStatus.pending, srStatus := GameStatus.pending,
    forecastStatus := GameStatus.pending }

/-- A user with balance 100. -/
def userA : User := { id := 7, balance := 100 }

/-- One FR DIRECT entry of 10 on number 34. -/
def entryA : BetEntry :=
  { number := some 34, frNumber := none, srNumber := none, amount := 10,
    playType := PlayType.direct, mode := Mode.fr, potentialWin := 0,
    isWinner := false, winAmount := 0 }

/-- A pending Bet holding entryA. -/
def betA : Bet :=
  { id := 3, user := 7, house := 1, round := 2, entries := [entryA],
    totalAmount := 10, status := BetStatus.pending, totalWinAmount := 0 }

/-- Scenario A state: one house, one pending round, one user, one pending
FR DIRECT bet of 10 on 34, no transactions yet. -/
def dbA : DB :=
  { houses := [houseA], rounds := [roundA], users := [userA], bets := [betA],
    transactions := [], nextId := 4 }

/-- A FORECAST DIRECT entry of 10 on the pair (FR = 34, SR = 53). -/
def entryF : BetEntry :=
  { number := none, frNumber := some 34, srNumber := some 53, amount := 10,
    playType := PlayType.direct, mode := Mode.forecast, potentialWin := 0,
    isWinner := false, winAmount := 0 }

/-- A pending forecast Bet holding entryF. -/
def betF : Bet :=
  { id := 3, user := 7, house := 1, round := 2, entries := [entryF],
    totalAmount := 10, status := BetStatus.pending, totalWinAmount := 0 }

/-- Scenario C state: as dbA but the bet is the forecast bet. -/
def dbC : DB :=
  { houses := [houseA], rounds := [roundA], users := [userA], bets := [betF],
    transactions := [], nextId := 4 }

/-- A round of houseA whose deadline (t = 100) has passed and whose status
the evaluator has already moved to live. -/
def roundLive : Round :=
  { roundA with
    status := RoundStatus.live
    frStatus := GameStatus.live
    srStatus := GameStatus.live
    forecastStatus := GameStatus.live }

/-- Post-deadline state for the wager-gating scenario. -/
def dbLive : DB :=
  { houses := [houseA], rounds := [roundLive], users := [userA], bets := [],
    transactions := [], nextId := 4 }

/-- A round that belongs to a different house (id 9). -/
def roundOther : Round := { roundA with house := 9 }

/-- State whose only round belongs to house 9, not to houseA. -/
def dbOther : DB :=
  { houses := [houseA], rounds := [roundOther], users := [userA], bets := [],
    transactions := [], nextId := 4 }

/-- State with no round at all for the Saturday auto-creation scenario. -/
def dbSat : DB :=
  { houses := [houseA], rounds := [], users := [userA], bets := [],
    transactions := [], nextId := 4 }

/-- A Saturday instant: minute 2880 lies in day 2, and day 2 + 4 = 6 mod 7
is Saturday; tomorrow is day 3, a Sunday. -/
def satNow : Int := 2880

/-! ## Helper lemmas -/

/-- autoCreateRoundForHouse modifies nothing: every branch either skips
the house or reaches a Round.create that omits the required deadlineTime
path, whose rejection is swallowed. -/
theorem autoCreate_id (now : Int) (db : DB) (hid : Nat) :
    autoCreateRoundForHouse now db hid = db := by
  unfold autoCreateRoundForHouse
  cases findHouse db hid with
  | none => rfl
  | some house => simp [roundCreate]

/-! ## Properties -/

/-- C1: Settlement of a winning direct FR bet pays stake times the house
FR DIRECT rate.  For a house with FR DIRECT rate 80 and a pending Bet with
one entry of 10 on number 34 (DIRECT/FR), recordResult with frResult = 34
answers success, marks the Bet won with totalWinAmount 800, raises the
user's balance from 100 to 900 (exactly +800), and appends exactly one
win Transaction of +800 that references the Bet. -/
theorem scenarioA_direct_fr_settlement :
    (recordResultRoute none 150 dbA 2 (some 34) none).2
        = RouteResult.ok "Results updated and winners calculated"
    ∧ findUser dbA 7 = some { id := 7, balance := 100 }
    ∧ findBet (recordResultRoute none 150 dbA 2 (some 34) none).1 3
        = some { id := 3, user := 7, house := 1, round := 2,
                 entries := [{ number := some 34, frNumber := none, srNumber := none,
                               amount := 10, playType := PlayType.direct, mode := Mode.fr,
                               potentialWin := 0, isWinner := true, winAmount := 800 }],
                 totalAmount := 10, status := BetStatus.won, totalWinAmount := 800 }
    ∧ findUser (recordResultRoute none 150 dbA 2 (some 34) none).1 7
        = some { id := 7, balance := 100 + 800 }
    ∧ (recordResultRoute none 150 dbA 2 (some 34) none).1.transactions
        = [{ user := 7, type := TxType.win, amount := 800, balanceBefore := 100,
             balanceAfter := 900, description := "Won bet on Shillong",
             relatedBet := some 3, status := TxStatus.completed }] := by
  decide

/-- C3 counterexample: two successive recordResult calls with the same FR
value at different instants do not produce the same Round state — the
second call restamps frResultTime — even though no Transaction or Bet or
balance changes. -/
theorem recordResult_restamps_frResultTime :
    (findRound (recordResultRoute none 150 dbA 2 (some 34) none).1 2).map Round.frResultTime
        = some (some 150)
    ∧ (findRound (recordResultRoute none 160
          (recordResultRoute none 150 dbA 2 (some 34) none).1 2 (some 34) none).1 2).map
          Round.frResultTime = some (some 160)
    ∧ findRound (recordResultRoute none 160
          (recordResultRoute none 150 dbA 2 (some 34) none).1 2 (some 34) none).1 2
        ≠ findRound (recordResultRoute none 150 dbA 2 (some 34) none).1 2 := by
  decide

/-- C4: when Bet creation throws after the balance was debited, placeBet
answers the 500 error with the user's balance still reduced by the stake —
the route's catch performs no compensating credit, so the debit is not
rolled back on this error outcome. -/
theorem placeBet_postDebit_failure_keeps_debit :
    (placeBet (some PlaceFault.betCreate) 50 dbA 7 1 2 [entryA]).2
        = PlaceResult.err 500 "Bet creation failed"
    ∧ findUser dbA 7 = some { id := 7, balance := 100 }
    ∧ findUser (placeBet (some PlaceFault.betCreate) 50 dbA 7 1 2 [entryA]).1 7
        = some { id := 7, balance := 90 }
    ∧ (placeBet (some PlaceFault.betCreate) 50 dbA 7 1 2 [entryA]).1.bets = dbA.bets
    ∧ (placeBet (some PlaceFault.betCreate) 50 dbA 7 1 2 [entryA]).1.transactions
        = dbA.transactions := by
  decide

/-- C5: a wager with an FR entry submitted at now = 200, past the round's
deadline 100, is accepted and the stake debited: the route's deadline
check reads round.frDeadline, which is not a Round schema field, so the
comparison against undefined never rejects, and the status gate still
admits the live round. -/
theorem placeBet_after_deadline_accepted :
    ((200:Int) ≥ roundLive.deadline)
    ∧ roundLive.frDeadline = none
    ∧ roundLive.status = RoundStatus.live
    ∧ (placeBet none 200 dbLive 7 1 2 [entryA]).2 = PlaceResult.ok 4 90
    ∧ findUser (placeBet none 200 dbLive 7 1 2 [entryA]).1 7 = some { id := 7, balance := 90 } := by
  decide

/-- C6 counterexample: the only round of the store belongs to house 9, yet
placeBet called with houseId 1 succeeds, creating the Bet and debiting the
stake — no round-belongs-to-house validation exists in the route. -/
theorem placeBet_wrong_house_accepted :
    (findRound dbOther 2).map Round.house = some 9
    ∧ (placeBet none 50 dbOther 7 1 2 [entryA]).2 = PlaceResult.ok 4 90
    ∧ findBet (placeBet none 50 dbOther 7 1 2 [entryA]).1 4
        = some { id := 4, user := 7, house := 1, round := 2,
                 entries := [{ entryA with potentialWin := 800 }],
                 totalAmount := 10, status := BetStatus.pending, totalWinAmount := 0 }
    ∧ findUser (placeBet none 50 dbOther 7 1 2 [entryA]).1 7 = some { id := 7, balance := 90 } := by
  decide

/-- C6 amended: placeBet validates only that the referenced Round exists:
when it does not, the call errors with 404 and the store is untouched; a
Round of a different house passes this check (see the counterexample). -/
theorem placeBet_round_missing_rejected (fault : Option PlaceFault) (now : Int)
    (db : DB) (uid hid rid : Nat) (entries : List BetEntry) (h : House)
    (hne : entries ≠ []) (hlen : entries.length ≤ 100)
    (hh : findHouse db hid = some h) (hact : h.isActive = true)
    (hr : findRound db rid = none) :
    placeBet fault now db uid hid rid entries = (db, PlaceResult.err 404 "Round not found") := by
  have h1 : entries.isEmpty = false := by
    cases entries with
    | nil => exact absurd rfl hne
    | cons a l => rfl
  have h2 : ¬ entries.length > 100 := by omega
  simp [placeBet, h1, h2, hh, hact, hr]

/-- C6 amended, instantiated: a concrete store with house 1 active and no
round 5; placeBet on round 5 answers 404 with no state change. -/
theorem placeBet_round_missing_rejected_witness :
    ([entryA] ≠ ([] : List BetEntry)) ∧ [entryA].length ≤ 100
    ∧ findHouse dbSat 1 = some houseA ∧ houseA.isActive = true
    ∧ findRound dbSat 5 = none
    ∧ placeBet none 0 dbSat 7 1 5 [entryA] = (dbSat, PlaceResult.err 404 "Round not found") :=
  ⟨by decide, by decide, by decide, by decide, by decide,
   placeBet_round_missing_rejected none 0 dbSat 7 1 5 [entryA] houseA
     (by decide) (by decide) (by decide) (by decide) (by decide)⟩

/-- C7 counterexample: a house operating Monday-Saturday, active and with
auto-create enabled; next-round creation triggered on a Saturday (so that
tomorrow is Sunday, weekday 0) leaves the store unchanged — no Monday
round is created, although Monday (weekday 1) is an operating day within
the next 7 days. -/
theorem autoCreate_saturday_creates_nothing :
    houseA.isActive = true ∧ houseA.autoCreateRounds = true
    ∧ houseA.operatingDays = [1, 2, 3, 4, 5, 6]
    ∧ dayOfWeek (tomorrowDay satNow) = 0
    ∧ ((1:Int) ∈ houseA.operatingDays)
    ∧ autoCreateRoundForHouse satNow dbSat 1 = dbSat
    ∧ dbSat.rounds = [] := by
  decide

/-- C7 amended: next-round creation looks only at tomorrow (no forward
scan), skipping the house when tomorrow is not an operating weekday; and
on the remaining path its Round.create omits the schema-required
deadlineTime field, so the create is always rejected and swallowed —
autoCreateRoundForHouse never modifies the store at all. -/
theorem autoCreateRoundForHouse_noop (now : Int) (db : DB) (hid : Nat) :
    autoCreateRoundForHouse now db hid = db :=
  autoCreate_id now db hid

/-- A settlement step only touches bets, users and transactions: rounds,
houses and the id counter are untouched, whether or not it threw. -/
theorem settleBet_frame (fault : Option Nat) (round : Round) (st : PassSt)
    (p : Bet × Option House) :
    (passResult (settleBet fault round st p)).db.rounds = st.db.rounds
    ∧ (passResult (settleBet fault round st p)).db.houses = st.db.houses
    ∧ (passResult (settleBet fault round st p)).db.nextId = st.db.nextId := by
  unfold settleBet
  rcases evalEntries round p.2 p.1.entries with u | ⟨es, tw, hw, cf⟩
  · exact ⟨rfl, rfl, rfl⟩
  · dsimp only
    repeat' split
    all_goals simp [passResult, saveBet, saveUser]

/-- The whole settlement loop preserves rounds, houses and the counter. -/
theorem settleBets_frame (fault : Option Nat) (round : Round) :
    ∀ (bs : List (Bet × Option House)) (st : PassSt),
    (passResult (settleBets fault round st bs)).db.rounds = st.db.rounds
    ∧ (passResult (settleBets fault round st bs)).db.houses = st.db.houses
    ∧ (passResult (settleBets fault round st bs)).db.nextId = st.db.nextId := by
  intro bs
  induction bs with
  | nil => intro st; exact ⟨rfl, rfl, rfl⟩
  | cons p ps ih =>
    intro st
    unfold settleBets
    cases h : settleBet fault round st p with
    | error st' =>
      have hf := settleBet_frame fault round st p
      rw [h] at hf
      simpa [passResult] using hf
    | ok st' =>
      have hf := settleBet_frame fault round st p
      rw [h] at hf
      simp only [passResult] at hf
      have h2 := ih st'
      exact ⟨h2.1.trans hf.1, h2.2.1.trans hf.2.1, h2.2.2.trans hf.2.2⟩

/-- calculateWinners preserves rounds, houses and the counter. -/
theorem calculateWinners_frame (fault : Option Nat) (db : DB) (round : Round) :
    (calculateWinners fault db round).rounds = db.rounds
    ∧ (calculateWinners fault db round).houses = db.houses
    ∧ (calculateWinners fault db round).nextId = db.nextId := by
  unfold calculateWinners
  by_cases h0 : fault = some 0
  · simp [h0]
  · simp only [h0, if_false]
    exact settleBets_frame fault round _ { db := db, k := 1 }

/-- Replacing a stored round by id keeps it findable: after save, lookup
of the saved id yields the saved document (provided it was present). -/
theorem find?_map_replace (l : List Round) (r' : Round)
    (h : (l.find? (fun z => decide (z.id = r'.id))).isSome = true) :
    (l.map (fun x => if x.id = r'.id then r' else x)).find?
        (fun z => decide (z.id = r'.id)) = some r' := by
  induction l with
  | nil => simp at h
  | cons a l ih =>
    by_cases ha : a.id = r'.id
    · have hif : (if a.id = r'.id then r' else a) = r' := by simp [ha]
      rw [List.map_cons, hif, List.find?_cons_of_pos _ (by simp)]
    · have hif : (if a.id = r'.id then r' else a) = a := by simp [ha]
      rw [List.map_cons, hif, List.find?_cons_of_neg _ (by simp [ha])]
      apply ih
      rwa [List.find?_cons_of_neg _ (by simp [ha])] at h

theorem findRound_saveRound (db : DB) (r' x : Round)
    (h : findRound db r'.id = some x) :
    findRound (saveRound db r') r'.id = some r' := by
  unfold findRound saveRound at *
  apply find?_map_replace
  rw [h]
  rfl

/-- applyResultUpdate keeps the document id. -/
theorem applyResultUpdate_id (now : Int) (fr? sr? : Option Int) (r : Round) :
    (applyResultUpdate now fr? sr? r).id = r.id := by
  unfold applyResultUpdate
  rcases fr? with _ | v <;> rcases sr? with _ | w <;> dsimp only <;> split <;> rfl

/-- applyResultUpdate with no SR value keeps srResult. -/
theorem applyResultUpdate_srResult (now : Int) (fr? : Option Int) (r : Round) :
    (applyResultUpdate now fr? none r).srResult = r.srResult := by
  unfold applyResultUpdate
  rcases fr? with _ | v <;> dsimp only <;> split <;> rfl

/-- C10: the result-update endpoint reports success even when settlement
fails entirely: for any injected settlement fault (operation 0 being the
Bet.find of the pass), the route still persists the Round's new FR result
and answers "Results updated and winners calculated"; when loading the
bets itself throws, no Bet and no Transaction and no balance is touched,
yet the response is the same success message. -/
theorem recordResult_swallows_settlement_errors (fault : Option Nat) (now : Int)
    (db : DB) (rid : Nat) (r : Round) (v : Int)
    (hr : findRound db rid = some r) (h0 : 0 ≤ v) (h99 : v ≤ 99)
    (hsr : r.srResult = none) :
    (recordResultRoute fault now db rid (some v) none).2
        = RouteResult.ok "Results updated and winners calculated"
    ∧ findRound (recordResultRoute fault now db rid (some v) none).1 rid
        = some (applyResultUpdate now (some v) none r)
    ∧ ((recordResultRoute fault now db rid (some v) none).1.rounds
        = (saveRound db (applyResultUpdate now (some v) none r)).rounds)
    ∧ (fault = some 0 →
        (recordResultRoute fault now db rid (some v) none).1.bets = db.bets
        ∧ (recordResultRoute fault now db rid (some v) none).1.transactions = db.transactions
        ∧ (recordResultRoute fault now db rid (some v) none).1.users = db.users) := by
  have hbad : badResult (some v) = false := by
    unfold badResult
    simp only [Bool.or_eq_false_iff, decide_eq_false_iff_not]
    omega
  have hid : (applyResultUpdate now (some v) none r).id = r.id := applyResultUpdate_id ..
  have hridr : r.id = rid := by
    have := List.find?_some hr
    simpa using this
  have hroute : recordResultRoute fault now db rid (some v) none
      = (calculateWinners fault (saveRound db (applyResultUpdate now (some v) none r))
           (applyResultUpdate now (some v) none r),
         RouteResult.ok "Results updated and winners calculated") := by
    unfold recordResultRoute
    rw [hr]
    have hb2 : badResult none = false := rfl
    simp only [hbad, hb2, Bool.false_eq_true, if_false]
    have hsome : (applyResultUpdate now (some v) none r).srResult.isSome = false := by
      rw [applyResultUpdate_srResult, hsr]; rfl
    simp [hsome]
  constructor
  · rw [hroute]
  constructor
  · rw [hroute]
    have hcw := (calculateWinners_frame fault
      (saveRound db (applyResultUpdate now (some v) none r))
      (applyResultUpdate now (some v) none r)).1
    unfold findRound
    rw [hcw]
    have h2 := findRound_saveRound db (applyResultUpdate now (some v) none r) r
      (by rw [hid, hridr]; exact hr)
    rw [hid, hridr] at h2
    unfold findRound at h2
    exact h2
  constructor
  · rw [hroute]
    exact (calculateWinners_frame fault
      (saveRound db (applyResultUpdate now (some v) none r))
      (applyResultUpdate now (some v) none r)).1
  · intro hf
    rw [hroute]
    unfold calculateWinners
    simp [hf, saveRound]

/-- The eager evaluator establishes the forecast-finished invariant
outright: it only ever writes finished into forecastStatus when both
results are present. -/
theorem roundInv_eval (now : Int) (r : Round) : RoundInv (updateRoundStatus now r) := by
  unfold RoundInv updateRoundStatus evalForecast
  intro h
  dsimp only at h ⊢
  split at h
  · next hb =>
      rw [Bool.and_eq_true] at hb
      exact ⟨hb.1, hb.2⟩
  · split at h <;> simp_all

/-- The scheduler tick preserves the forecast-finished invariant: it can
only move forecastStatus from pending to live, and leaves results alone. -/
theorem roundInv_sched (now : Int) (r : Round) (h : RoundInv r) :
    RoundInv (schedulerUpdateRound now r) := by
  unfold RoundInv schedulerUpdateRound
  dsimp only
  split
  · intro hfin
    dsimp only at hfin
    split at hfin
    · simp at hfin
    · exact h hfin
  · exact h

/-- The result-route mutation preserves the forecast-finished invariant:
it writes finished into forecastStatus only when both results are set. -/
theorem roundInv_record (now : Int) (fr? sr? : Option Int) (r : Round)
    (h : RoundInv r) : RoundInv (applyResultUpdate now fr? sr? r) := by
  unfold RoundInv applyResultUpdate
  rcases fr? with _ | v <;> rcases sr? with _ | w <;> dsimp only <;> split <;>
    first
      | (next hb =>
          intro _
          rw [Bool.and_eq_true] at hb
          exact ⟨hb.1, hb.2⟩)
      | (intro hfin
         have hfin2 : r.forecastStatus = GameStatus.finished := hfin
         rcases h hfin2 with ⟨h1, h2⟩
         simp_all)

/-- Admin round creation yields a round satisfying the invariant (its
initial forecast status is live or pending, never finished). -/
theorem roundInv_admin (now : Int) (db : DB) (hid : Nat) (date dl : Int)
    (dtH dtM : Nat) (db' : DB) (r : Round)
    (h : adminCreateRound now db hid date dl dtH dtM = Except.ok (db', r)) :
    RoundInv r := by
  unfold adminCreateRound adminInitialStatuses roundCreate at h
  dsimp only at h
  split at h <;> (cases h; intro hfin; simp at hfin)

/-- Any sequence of the three round-level core operations preserves the
forecast-finished invariant. -/
theorem roundInv_ops (ops : List RoundOp) (r : Round) (h : RoundInv r) :
    RoundInv (applyRoundOps ops r) := by
  induction ops generalizing r with
  | nil => exact h
  | cons op ops ih =>
    cases op with
    | evalStatus now => exact ih _ (roundInv_eval now r)
    | schedTick now => exact ih _ (roundInv_sched now r h)
    | record fr? sr? now => exact ih _ (roundInv_record now fr? sr? r h)

/-- C8: the forecast-finished invariant.  Admin round creation produces a
round satisfying it; the eager status evaluator establishes it outright;
the scheduler tick and the result-route mutation preserve it; hence it
holds after any sequence of the core round operations (the remainder of
the result route — settlement and next-round creation — never mutates the
fields of an existing Round, see calculateWinners_frame and
autoCreate_id). -/
theorem forecast_finished_invariant :
    (∀ (now : Int) (db : DB) (hid : Nat) (date dl : Int) (dtH dtM : Nat)
        (db' : DB) (r : Round),
        adminCreateRound now db hid date dl dtH dtM = Except.ok (db', r) → RoundInv r)
    ∧ (∀ (now : Int) (r : Round), RoundInv (updateRoundStatus now r))
    ∧ (∀ (now : Int) (r : Round), RoundInv r → RoundInv (schedulerUpdateRound now r))
    ∧ (∀ (now : Int) (fr? sr? : Option Int) (r : Round),
        RoundInv r → RoundInv (applyResultUpdate now fr? sr? r))
    ∧ (∀ (ops : List RoundOp) (r : Round), RoundInv r → RoundInv (applyRoundOps ops r)) :=
  ⟨fun now db hid date dl dtH dtM db' r h => roundInv_admin now db hid date dl dtH dtM db' r h,
   roundInv_eval,
   fun now r h => roundInv_sched now r h,
   fun now fr? sr? r h => roundInv_record now fr? sr? r h,
   fun ops r h => roundInv_ops ops r h⟩

/-- C8, instantiated: the invariant holds of the concrete pending round
and is kept by a concrete operation sequence (evaluate, record FR, tick,
record SR, evaluate). -/
theorem forecast_finished_invariant_witness :
    RoundInv roundA
    ∧ RoundInv (applyRoundOps
        [RoundOp.evalStatus 50, RoundOp.record (some 34) none 150,
         RoundOp.schedTick 155, RoundOp.record none (some 53) 160,
         RoundOp.evalStatus 170] roundA) :=
  ⟨by decide, forecast_finished_invariant.2.2.2.2 _ roundA (by decide)⟩

/-- The per-sub-game evaluator is monotone in (result present, deadline
passed): statuses ordered pending < live < finished never regress. -/
theorem evalGame_mono (o1 o2 : Option Int) (p1 p2 : Bool)
    (ho : o1.isSome = true → o2.isSome = true) (hp : p1 = true → p2 = true) :
    rank (evalGame o1 p1) ≤ rank (evalGame o2 p2) := by
  unfold evalGame rank
  rcases o1 with _ | a <;> rcases o2 with _ | b <;> cases p1 <;> cases p2 <;> simp_all

/-- Likewise for the forecast evaluator over both results. -/
theorem evalForecast_mono (f1 s1 f2 s2 : Option Int) (p1 p2 : Bool)
    (hf : f1.isSome = true → f2.isSome = true)
    (hs : s1.isSome = true → s2.isSome = true)
    (hp : p1 = true → p2 = true) :
    rank (evalForecast f1 s1 p1) ≤ rank (evalForecast f2 s2 p2) := by
  unfold evalForecast rank
  rcases f1 with _ | a <;> rcases s1 with _ | b <;> rcases f2 with _ | c <;>
    rcases s2 with _ | d <;> cases p1 <;> cases p2 <;> simp_all

/-- A pending-to-live transition guarded by the status being pending
never lowers the rank. -/
theorem rank_fire (s : GameStatus) (c : Bool) :
    rank s ≤ rank (if (decide (s = GameStatus.pending) && c) = true
                   then GameStatus.live else s) := by
  cases s <;> cases c <;> simp [rank]

/-- The scheduler tick never lowers any of the three game statuses. -/
theorem sched_rank (now : Int) (r : Round) :
    rank r.frStatus ≤ rank ((schedulerUpdateRound now r).frStatus)
    ∧ rank r.srStatus ≤ rank ((schedulerUpdateRound now r).srStatus)
    ∧ rank r.forecastStatus ≤ rank ((schedulerUpdateRound now r).forecastStatus) := by
  simp only [schedulerUpdateRound]
  refine ⟨?_, ?_, ?_⟩ <;> split <;>
    first
      | exact le_refl _
      | exact rank_fire _ _

/-- C9: status monotonicity of the deadline evaluator.  For a fixed
deadline, two evaluator calls at non-decreasing times with results only
ever added in between move each of frStatus, srStatus and forecastStatus
only forward in the order pending → live → finished; and the scheduler
status tick likewise never lowers any game status. -/
theorem status_monotone (r0 : Round) (now1 now2 : Int) (fr' sr' : Option Int)
    (hle : now1 ≤ now2)
    (hfr : r0.frResult.isSome = true → fr'.isSome = true)
    (hsr : r0.srResult.isSome = true → sr'.isSome = true) :
    (rank (updateRoundStatus now1 r0).frStatus
       ≤ rank (updateRoundStatus now2
            { updateRoundStatus now1 r0 with frResult := fr', srResult := sr' }).frStatus
     ∧ rank (updateRoundStatus now1 r0).srStatus
       ≤ rank (updateRoundStatus now2
            { updateRoundStatus now1 r0 with frResult := fr', srResult := sr' }).srStatus
     ∧ rank (updateRoundStatus now1 r0).forecastStatus
       ≤ rank (updateRoundStatus now2
            { updateRoundStatus now1 r0 with frResult := fr', srResult := sr' }).forecastStatus)
    ∧ (∀ (now : Int) (r : Round),
        rank r.frStatus ≤ rank ((schedulerUpdateRound now r).frStatus)
        ∧ rank r.srStatus ≤ rank ((schedulerUpdateRound now r).srStatus)
        ∧ rank r.forecastStatus ≤ rank ((schedulerUpdateRound now r).forecastStatus)) := by
  refine ⟨⟨?_, ?_, ?_⟩, sched_rank⟩
  · refine evalGame_mono r0.frResult fr' _ _ hfr ?_
    show decide (now1 ≥ r0.deadline) = true → decide (now2 ≥ r0.deadline) = true
    simp only [decide_eq_true_eq]
    omega
  · refine evalGame_mono r0.srResult sr' _ _ hsr ?_
    show decide (now1 ≥ r0.deadline) = true → decide (now2 ≥ r0.deadline) = true
    simp only [decide_eq_true_eq]
    omega
  · refine evalForecast_mono r0.frResult r0.srResult fr' sr' _ _ hfr hsr ?_
    show decide (now1 ≥ r0.deadline) = true → decide (now2 ≥ r0.deadline) = true
    simp only [decide_eq_true_eq]
    omega

/-- C9, instantiated: concrete evaluator calls at 50 then 150 with the FR
result arriving in between never lower a status. -/
theorem status_monotone_witness :
    ((50:Int) ≤ 150)
    ∧ (roundA.frResult.isSome = true → (some (34:Int)).isSome = true)
    ∧ (roundA.srResult.isSome = true → (none : Option Int).isSome = true)
    ∧ (rank (updateRoundStatus 50 roundA).frStatus
        ≤ rank (updateRoundStatus 150
             { updateRoundStatus 50 roundA with frResult := some 34, srResult := none }).frStatus
       ∧ rank (updateRoundStatus 50 roundA).srStatus
        ≤ rank (updateRoundStatus 150
             { updateRoundStatus 50 roundA with frResult := some 34, srResult := none }).srStatus
       ∧ rank (updateRoundStatus 50 roundA).forecastStatus
        ≤ rank (updateRoundStatus 150
             { updateRoundStatus 50 roundA with frResult := some 34, srResult := none }).forecastStatus) :=
  ⟨by decide, by decide, by decide,
   (status_monotone roundA 50 150 (some 34) none (by decide) (by decide) (by decide)).1⟩

/-- C10, instantiated: the Bet.find of the settlement pass throws
(fault at operation 0); the route still stores FR = 34 and answers the
success message while no bet, transaction or balance changed. -/
theorem recordResult_swallows_settlement_errors_witness :
    findRound dbA 2 = some roundA ∧ ((0:Int) ≤ 34) ∧ ((34:Int) ≤ 99)
    ∧ roundA.srResult = none
    ∧ ((recordResultRoute (some 0) 150 dbA 2 (some 34) none).2
          = RouteResult.ok "Results updated and winners calculated"
       ∧ findRound (recordResultRoute (some 0) 150 dbA 2 (some 34) none).1 2
          = some (applyResultUpdate 150 (some 34) none roundA)
       ∧ ((recordResultRoute (some 0) 150 dbA 2 (some 34) none).1.rounds
          = (saveRound dbA (applyResultUpdate 150 (some 34) none roundA)).rounds)
       ∧ (some 0 = some 0 →
            (recordResultRoute (some 0) 150 dbA 2 (some 34) none).1.bets = dbA.bets
            ∧ (recordResultRoute (some 0) 150 dbA 2 (some 34) none).1.transactions
                = dbA.transactions
            ∧ (recordResultRoute (some 0) 150 dbA 2 (some 34) none).1.users = dbA.users)) :=
  ⟨by decide, by decide, by decide, by decide,
   recordResult_swallows_settlement_errors (some 0) 150 dbA 2 roundA 34
     (by decide) (by decide) (by decide) (by decide)⟩

/-- An entry whose sub-game result is still missing is marked unprocessed:
it is rewritten with isWinner false and winAmount 0, contributes no win,
and blocks finalization of the Bet. -/
theorem evalEntry_unresolvable (round : Round) (house? : Option House) (e : BetEntry)
    (hu : Unresolvable round e) :
    evalEntry round house? e
      = Except.ok ({ e with isWinner := false, winAmount := 0 }, 0, false, false) := by
  unfold evalEntry
  rcases hu with ⟨hm, hr⟩ | ⟨hm, hr⟩ | ⟨hm, hr⟩
  · rw [hm, hr]
  · rw [hm, hr]
  · rcases hr with hfr | hsr
    · rcases hS : round.srResult with _ | w <;> rw [hm, hfr]
    · rcases hF : round.frResult with _ | w <;> rw [hm, hsr]

/-- A Bet containing an unresolvable entry either throws during entry
evaluation or evaluates with canFinalizeBet false. -/
theorem evalEntries_unresolvable (round : Round) (house? : Option House)
    (entries : List BetEntry) (e : BetEntry) (he : e ∈ entries)
    (hu : Unresolvable round e) :
    evalEntries round house? entries = Except.error ()
    ∨ ∃ es tw hw, evalEntries round house? entries = Except.ok (es, tw, hw, false) := by
  induction entries with
  | nil => cases he
  | cons a l ih =>
    rcases List.mem_cons.mp he with rfl | hmem
    · rcases hE : evalEntries round house? l with ⟨⟩ | ⟨es, tw, hw, cf⟩
      · left
        simp [evalEntries, evalEntry_unresolvable round house? e hu, hE]
      · right
        exact ⟨{ e with isWinner := false, winAmount := 0 } :: es, tw, hw,
          by simp [evalEntries, evalEntry_unresolvable round house? e hu, hE]⟩
    · rcases hA : evalEntry round house? a with ⟨⟩ | ⟨a', w, isW, fin⟩
      · left
        simp [evalEntries, hA]
      · rcases ih hmem with hE | ⟨es, tw, hw, hE⟩
        · left
          simp [evalEntries, hA, hE]
        · right
          exact ⟨a' :: es, w + tw, isW || hw, by simp [evalEntries, hA, hE]⟩

/-- Replacing a bet of a different id does not change a lookup. -/
theorem find?_bet_replace_ne (l : List Bet) (b : Bet) (i : Nat) (h : ¬ b.id = i) :
    (l.map (fun x => if x.id = b.id then b else x)).find? (fun z => decide (z.id = i))
      = l.find? (fun z => decide (z.id = i)) := by
  induction l with
  | nil => rfl
  | cons a l ih =>
    by_cases ha : a.id = b.id
    · have hif : (if a.id = b.id then b else a) = b := by simp [ha]
      rw [List.map_cons, hif, List.find?_cons_of_neg _ (by simp [h]),
        List.find?_cons_of_neg _ (by simp [ha, h])]
      exact ih
    · have hif : (if a.id = b.id then b else a) = a := by simp [ha]
      rw [List.map_cons, hif]
      by_cases hai : a.id = i
      · rw [List.find?_cons_of_pos _ (by simp [hai]), List.find?_cons_of_pos _ (by simp [hai])]
      · rw [List.find?_cons_of_neg _ (by simp [hai]), List.find?_cons_of_neg _ (by simp [hai])]
        exact ih

/-- saveBet of a different id does not change a bet lookup. -/
theorem findBet_saveBet_ne (db : DB) (b : Bet) (i : Nat) (h : ¬ b.id = i) :
    findBet (saveBet db b) i = findBet db i := by
  unfold findBet saveBet
  exact find?_bet_replace_ne db.bets b i h

/-- A fault-free settlement step never touches (nor creates transactions
for) a bet id whose own evaluation cannot be finalized: whatever it does
for the processed bet, the lookup of `bid` and the transactions that
reference `bid` are unchanged. -/
theorem settleBet_skip (round : Round) (st : PassSt) (p : Bet × Option House) (bid : Nat)
    (hnot : p.1.id = bid →
      evalEntries round p.2 p.1.entries = Except.error ()
      ∨ ∃ es tw hw, evalEntries round p.2 p.1.entries = Except.ok (es, tw, hw, false)) :
    findBet (passResult (settleBet none round st p)).db bid = findBet st.db bid
    ∧ ∀ tx ∈ (passResult (settleBet none round st p)).db.transactions,
        tx.relatedBet = some bid → tx ∈ st.db.transactions := by
  rcases hE : evalEntries round p.2 p.1.entries with ⟨⟩ | ⟨es, tw, hw, cf⟩
  · unfold settleBet
    rw [hE]
    exact ⟨rfl, fun tx h _ => h⟩
  · by_cases hcf : cf = true
    · subst hcf
      have hidne : ¬ p.1.id = bid := by
        intro hid
        rcases hnot hid with hE' | ⟨es', tw', hw', hE'⟩
        · rw [hE] at hE'
          cases hE'
        · rw [hE] at hE'
          simp at hE'
      unfold settleBet
      rw [hE]
      dsimp only
      rw [if_pos rfl, if_neg (by simp)]
      split
      · rw [if_neg (by simp)]
        split
        · exact ⟨findBet_saveBet_ne st.db _ bid hidne, fun tx h _ => h⟩
        · rw [if_neg (by simp)]
          split
          · exact ⟨findBet_saveBet_ne st.db _ bid hidne, fun tx h _ => h⟩
          · rw [if_neg (by simp)]
            refine ⟨findBet_saveBet_ne st.db _ bid hidne, ?_⟩
            intro tx hmem hrel
            rcases List.mem_append.mp hmem with hold | hnew
            · exact hold
            · obtain rfl := List.mem_singleton.mp hnew
              exact absurd (Option.some.inj hrel) hidne
      · exact ⟨findBet_saveBet_ne st.db _ bid hidne, fun tx h _ => h⟩
    · unfold settleBet
      rw [hE]
      dsimp only
      rw [if_neg hcf]
      exact ⟨rfl, fun tx h _ => h⟩

/-- With distinct bet ids, looking a member up by its id finds it. -/
theorem find?_bet_mem_nodup (l : List Bet) (b : Bet) (hb : b ∈ l)
    (hnd : (l.map Bet.id).Nodup) : l.find? (fun z => decide (z.id = b.id)) = some b := by
  induction l with
  | nil => cases hb
  | cons a l ih =>
    rcases List.mem_cons.mp hb with rfl | hb'
    · exact List.find?_cons_of_pos _ (by simp)
    · have hnd' := List.nodup_cons.mp hnd
      have hne : ¬ a.id = b.id := by
        intro h
        apply hnd'.1
        rw [h]
        exact List.mem_map_of_mem Bet.id hb'
      rw [List.find?_cons_of_neg _ (by simp [hne])]
      exact ih hb' hnd'.2

/-- The fault-free settlement loop never touches nor pays a bet id all of
whose occurrences in the processed list are unfinalizable. -/
theorem settleBets_skip (round : Round) (bid : Nat) :
    ∀ (bs : List (Bet × Option House)) (st : PassSt),
    (∀ p ∈ bs, p.1.id = bid →
        evalEntries round p.2 p.1.entries = Except.error ()
        ∨ ∃ es tw hw, evalEntries round p.2 p.1.entries = Except.ok (es, tw, hw, false)) →
    findBet (passResult (settleBets none round st bs)).db bid = findBet st.db bid
    ∧ ∀ tx ∈ (passResult (settleBets none round st bs)).db.transactions,
        tx.relatedBet = some bid → tx ∈ st.db.transactions := by
  intro bs
  induction bs with
  | nil => exact fun st _ => ⟨rfl, fun tx h _ => h⟩
  | cons p ps ih =>
    intro st hnot
    unfold settleBets
    cases hS : settleBet none round st p with
    | error st' =>
      have hp := settleBet_skip round st p bid (fun h => hnot p (List.mem_cons_self p ps) h)
      rw [hS] at hp
      exact hp
    | ok st' =>
      have hp := settleBet_skip round st p bid (fun h => hnot p (List.mem_cons_self p ps) h)
      rw [hS] at hp
      simp only [passResult] at hp
      have hih := ih st' (fun q hq h => hnot q (List.mem_cons_of_mem p hq) h)
      refine ⟨hih.1.trans hp.1, ?_⟩
      intro tx hmem hrel
      exact hp.2 tx (hih.2 tx hmem hrel) hrel

/-- C2: no partial finalization.  A pending Bet holding an entry whose
sub-game result is still missing is left exactly as it was by a fault-free
settlement pass — still pending, paid nothing — and no new Transaction
references it; and (Scenario C) the concrete forecast DIRECT bet on
(FR = 34, SR = 53) stays pending after frResult = 34 alone, then settles
won at the forecast DIRECT rate (10 × 400 = 4000) once srResult = 53
arrives. -/
theorem pending_entry_blocks_finalization (db : DB) (round : Round) (bet : Bet)
    (e : BetEntry) (hnd : (db.bets.map Bet.id).Nodup) (hb : bet ∈ db.bets)
    (hst : bet.status = BetStatus.pending) (hrd : bet.round = round.id)
    (he : e ∈ bet.entries) (hu : Unresolvable round e) :
    findBet (calculateWinners none db round) bet.id = some bet
    ∧ (∀ tx ∈ (calculateWinners none db round).transactions,
        tx.relatedBet = some bet.id → tx ∈ db.transactions)
    ∧ (findBet (recordResultRoute none 150 dbC 2 (some 34) none).1 3 = some betF
       ∧ (recordResultRoute none 150 dbC 2 (some 34) none).1.transactions = []
       ∧ (findBet (recordResultRoute none 160
            (recordResultRoute none 150 dbC 2 (some 34) none).1 2 none (some 53)).1 3).map
            Bet.status = some BetStatus.won
       ∧ (findBet (recordResultRoute none 160
            (recordResultRoute none 150 dbC 2 (some 34) none).1 2 none (some 53)).1 3).map
            Bet.totalWinAmount = some (10 * 400)
       ∧ findUser (recordResultRoute none 160
            (recordResultRoute none 150 dbC 2 (some 34) none).1 2 none (some 53)).1 7
           = some { id := 7, balance := 100 + 10 * 400 }) := by
  have hfind : findBet db bet.id = some bet := find?_bet_mem_nodup db.bets bet hb hnd
  have hcw : calculateWinners none db round
      = (passResult (settleBets none round { db := db, k := 1 }
          ((db.bets.filter
              (fun b => decide (b.round = round.id ∧ b.status = BetStatus.pending))).map
            (fun b => (b, findHouse db b.house))))).db := by
    unfold calculateWinners
    rw [if_neg (by simp)]
  have hnot : ∀ p ∈ (db.bets.filter
        (fun b => decide (b.round = round.id ∧ b.status = BetStatus.pending))).map
        (fun b => (b, findHouse db b.house)), p.1.id = bet.id →
      evalEntries round p.2 p.1.entries = Except.error ()
      ∨ ∃ es tw hw, evalEntries round p.2 p.1.entries = Except.ok (es, tw, hw, false) := by
    intro p hp hid
    obtain ⟨b, hbp, rfl⟩ := List.mem_map.mp hp
    have hbb : b ∈ db.bets := List.mem_of_mem_filter hbp
    have hbe : b = bet := List.inj_on_of_nodup_map hnd hbb hb hid
    subst hbe
    exact evalEntries_unresolvable round (findHouse db b.house) b.entries e he hu
  have hmain := settleBets_skip round bet.id _ { db := db, k := 1 } hnot
  refine ⟨?_, ?_, by decide⟩
  · rw [hcw, hmain.1]
    exact hfind
  · intro tx hmem hrel
    rw [hcw] at hmem
    exact hmain.2 tx hmem hrel

/-- C2, instantiated: in the Scenario C store the forecast bet contains a
forecast entry while only FR is known; the pass leaves it untouched and
unpaid, and the concrete two-step settlement behaves as described. -/
theorem pending_entry_blocks_finalization_witness :
    ((dbC.bets.map Bet.id).Nodup ∧ betF ∈ dbC.bets ∧ betF.status = BetStatus.pending
     ∧ betF.round = (applyResultUpdate 150 (some 34) none roundA).id
     ∧ entryF ∈ betF.entries ∧ Unresolvable (applyResultUpdate 150 (some 34) none roundA) entryF)
    ∧ findBet (calculateWinners none dbC (applyResultUpdate 150 (some 34) none roundA)) betF.id
        = some betF :=
  ⟨⟨by decide, by decide, by decide, by decide, by decide, by decide⟩,
   (pending_entry_blocks_finalization dbC (applyResultUpdate 150 (some 34) none roundA)
      betF entryF (by decide) (by decide) (by decide) (by decide) (by decide) (by decide)).1⟩

/-- When a Bet evaluates with canFinalizeBet false, the fault-free
settlement step writes nothing. -/
theorem settleBet_cffalse (round : Round) (st : PassSt) (p : Bet × Option House)
    (es : List BetEntry) (tw : Int) (hw : Bool)
    (hE : evalEntries round p.2 p.1.entries = Except.ok (es, tw, hw, false)) :
    settleBet none round st p = Except.ok st := by
  unfold settleBet
  rw [hE]
  rfl

/-- A winning entry evaluation implies the populated house was present:
with a null house, every winning branch throws at the rate read. -/
theorem evalEntry_winner_house (round : Round) (e e' : BetEntry) (w : Int) (fin : Bool)
    (h : evalEntry round none e = Except.ok (e', w, true, fin)) : False := by
  unfold evalEntry at h
  repeat' split at h
  all_goals simp_all [calculateWinAmount, forecastRate]

/-- Lifted to a whole Bet: hasWinner true forces a present house. -/
theorem evalEntries_winner_house (round : Round) (entries : List BetEntry)
    (es : List BetEntry) (tw : Int) (cf : Bool)
    (h : evalEntries round none entries = Except.ok (es, tw, true, cf)) : False := by
  induction entries generalizing es tw cf with
  | nil =>
    unfold evalEntries at h
    simp at h
  | cons a l ih =>
    unfold evalEntries at h
    rcases hA : evalEntry round none a with ⟨⟩ | ⟨a', w, isW, fin⟩ <;> rw [hA] at h
    · cases h
    · rcases hE : evalEntries round none l with ⟨⟩ | ⟨es', tw', hw', cf'⟩ <;> rw [hE] at h
      · cases h
      · simp only [Except.ok.injEq, Prod.mk.injEq] at h
        rcases h with ⟨_, _, hor, _⟩
        rw [Bool.or_eq_true] at hor
        rcases hor with hisW | hhw'
        · subst hisW
          exact evalEntry_winner_house round a a' w fin hA
        · subst hhw'
          exact ih es' tw' cf' hE

/-- saveBet keeps the list of bet ids unchanged. -/
theorem saveBet_ids (db : DB) (b : Bet) :
    (saveBet db b).bets.map Bet.id = db.bets.map Bet.id := by
  unfold saveBet
  dsimp only
  rw [List.map_map]
  apply List.map_congr_left
  intro x _
  by_cases hx : x.id = b.id
  · simp [Function.comp, hx]
  · simp [Function.comp, hx]

/-- A pending member of the store after saving a non-pending bet was
already a member before. -/
theorem saveBet_pending_mem (db : DB) (b b' : Bet)
    (hmem : b' ∈ (saveBet db b).bets) (hp : b'.status = BetStatus.pending)
    (hb : ¬ b.status = BetStatus.pending) : b' ∈ db.bets := by
  unfold saveBet at hmem
  dsimp only at hmem
  obtain ⟨x, hx, hxe⟩ := List.mem_map.mp hmem
  by_cases hid : x.id = b.id
  · rw [if_pos hid] at hxe
    subst hxe
    exact absurd hp hb
  · rw [if_neg hid] at hxe
    subst hxe
    exact hx

/-- List form: a lookup at the saved id over the replaced list can only
return the saved bet. -/
theorem find?_save_self (l : List Bet) (b x : Bet)
    (h : (l.map (fun z => if z.id = b.id then b else z)).find?
          (fun z => decide (z.id = b.id)) = some x) : x = b := by
  induction l with
  | nil => cases h
  | cons a l ih =>
    rw [List.map_cons] at h
    by_cases ha : a.id = b.id
    · rw [if_pos ha, List.find?_cons_of_pos _ (by simp)] at h
      exact (Option.some.inj h).symm
    · rw [if_neg ha, List.find?_cons_of_neg _ (by simp [ha])] at h
      exact ih h

/-- Looking up the id of a just-saved bet yields that bet, if anything. -/
theorem findBet_saveBet_self (db : DB) (b x : Bet)
    (h : findBet (saveBet db b) b.id = some x) : x = b := by
  unfold findBet saveBet at h
  exact find?_save_self db.bets b x h

/-- Lookups depend only on the bets collection. -/
theorem findBet_congr (db1 db2 : DB) (h : db1.bets = db2.bets) (i : Nat) :
    findBet db1 i = findBet db2 i := by
  unfold findBet
  rw [h]

/-- The fault-free settlement step on a finalizable Bet: it succeeds, and
its bets collection is exactly the store with that Bet saved as won/lost
(later credit and transaction writes do not touch bets). -/
theorem settleBet_run (round : Round) (st : PassSt) (p : Bet × Option House)
    (es : List BetEntry) (tw : Int) (hw : Bool)
    (hE : evalEntries round p.2 p.1.entries = Except.ok (es, tw, hw, true)) :
    ∃ st', settleBet none round st p = Except.ok st'
      ∧ st'.db.bets = (saveBet st.db { p.1 with entries := es, totalWinAmount := tw, status := if hw = true then BetStatus.won else BetStatus.lost }).bets := by
  unfold settleBet
  rw [hE]
  dsimp only
  rw [if_pos rfl, if_neg (by simp)]
  split
  · rw [if_neg (by simp)]
    have hhouse : p.2 ≠ none := by
      intro hn
      rename_i hhw
      rw [Bool.and_eq_true] at hhw
      rw [hn] at hE
      rw [hhw.1] at hE
      exact evalEntries_winner_house round p.1.entries es tw true hE
    split
    · exact ⟨_, rfl, rfl⟩
    · rw [if_neg (by simp)]
      rcases hH : p.2 with _ | h
      · exact absurd hH hhouse
      · exact ⟨_, rfl, rfl⟩
  · exact ⟨_, rfl, rfl⟩

/-- A fault-free settlement pass over bets that all evaluate without a
throw and carry pairwise-distinct ids: the pass completes, preserves the
id list, introduces no new pending bet, and leaves every finalizable bet
of the list non-pending in the final store. -/
theorem settleBets_run (round : Round) :
    ∀ (bs : List (Bet × Option House)) (st : PassSt),
    (∀ p ∈ bs, isOkE (evalEntries round p.2 p.1.entries) = true) →
    List.Pairwise (fun q1 q2 => q1.1.id ≠ q2.1.id) bs →
    ∃ st', settleBets none round st bs = Except.ok st'
      ∧ st'.db.bets.map Bet.id = st.db.bets.map Bet.id
      ∧ (∀ b', b' ∈ st'.db.bets → b'.status = BetStatus.pending → b' ∈ st.db.bets)
      ∧ ∀ p ∈ bs, ∀ es tw hw,
          evalEntries round p.2 p.1.entries = Except.ok (es, tw, hw, true) →
          ∀ b', findBet st'.db p.1.id = some b' → ¬ b'.status = BetStatus.pending := by
  intro bs
  induction bs with
  | nil =>
    intro st _ _
    exact ⟨st, rfl, rfl, fun b' hb _ => hb, fun p hp => absurd hp (List.not_mem_nil p)⟩
  | cons p ps ih =>
    intro st hok hpw
    have hokp := hok p (List.mem_cons_self p ps)
    rcases hE : evalEntries round p.2 p.1.entries with ⟨⟩ | ⟨es, tw, hw, cf⟩
    · rw [hE] at hokp
      simp [isOkE] at hokp
    · by_cases hcf : cf = true
      · subst hcf
        obtain ⟨stM, hsb, hbets⟩ := settleBet_run round st p es tw hw hE
        obtain ⟨st', hloop, hids, hpend, hfin⟩ :=
          ih stM (fun q hq => hok q (List.mem_cons_of_mem _ hq))
            ((List.pairwise_cons.mp hpw).2)
        refine ⟨st', ?_, ?_, ?_, ?_⟩
        · unfold settleBets
          rw [hsb]
          exact hloop
        · rw [hids, hbets]
          exact saveBet_ids st.db _
        · intro b' hb' hp'
          have hb2 := hpend b' hb' hp'
          rw [hbets] at hb2
          exact saveBet_pending_mem st.db _ b' hb2 hp' (by split <;> simp)
        · intro q hq es' tw' hw' hE' b' hfb
          rcases List.mem_cons.mp hq with rfl | hq'
          · have hskip := settleBets_skip round q.1.id ps stM
              (fun q2 hq2 hid2 =>
                absurd hid2.symm ((List.pairwise_cons.mp hpw).1 q2 hq2))
            rw [hloop] at hskip
            simp only [passResult] at hskip
            rw [hskip.1] at hfb
            rw [findBet_congr stM.db _ hbets q.1.id] at hfb
            have hb'eq := findBet_saveBet_self st.db _ b' hfb
            rw [hb'eq]
            show ¬ (if hw = true then BetStatus.won else BetStatus.lost) = BetStatus.pending
            cases hw <;> simp
          · exact hfin q hq' es' tw' hw' hE' b' hfb
      · have hcf' : cf = false := by
          cases cf
          · rfl
          · exact absurd rfl hcf
        subst hcf'
        have hsb := settleBet_cffalse round st p es tw hw hE
        obtain ⟨st', hloop, hids, hpend, hfin⟩ :=
          ih st (fun q hq => hok q (List.mem_cons_of_mem _ hq))
            ((List.pairwise_cons.mp hpw).2)
        refine ⟨st', ?_, hids, hpend, ?_⟩
        · unfold settleBets
          rw [hsb]
          exact hloop
        · intro q hq es' tw' hw' hE' b' hfb
          rcases List.mem_cons.mp hq with rfl | hq'
          · rw [hE] at hE'
            simp at hE'
          · exact hfin q hq' es' tw' hw' hE' b' hfb

/-- Lookups depend only on the houses collection. -/
theorem findHouse_congr (db1 db2 : DB) (h : db1.houses = db2.houses) (i : Nat) :
    findHouse db1 i = findHouse db2 i := by
  unfold findHouse
  rw [h]

/-- Entry evaluation depends on the round only through its two results. -/
theorem evalEntry_congr (r1 r2 : Round) (hfr : r1.frResult = r2.frResult)
    (hsr : r1.srResult = r2.srResult) (house? : Option House) (e : BetEntry) :
    evalEntry r1 house? e = evalEntry r2 house? e := by
  unfold evalEntry
  rw [hfr, hsr]

/-- Likewise for a whole entry list. -/
theorem evalEntries_congr (r1 r2 : Round) (hfr : r1.frResult = r2.frResult)
    (hsr : r1.srResult = r2.srResult) (house? : Option House) :
    ∀ es, evalEntries r1 house? es = evalEntries r2 house? es := by
  intro es
  induction es with
  | nil => rfl
  | cons e l ih =>
    unfold evalEntries
    rw [evalEntry_congr r1 r2 hfr hsr house? e, ih]

/-- A settlement pass over bets that all evaluate with canFinalizeBet
false writes nothing at all. -/
theorem settleBets_noop (round : Round) :
    ∀ (bs : List (Bet × Option House)) (st : PassSt),
    (∀ p ∈ bs, ∃ es tw hw,
        evalEntries round p.2 p.1.entries = Except.ok (es, tw, hw, false)) →
    settleBets none round st bs = Except.ok st := by
  intro bs
  induction bs with
  | nil => intro st _; rfl
  | cons p ps ih =>
    intro st hall
    obtain ⟨es, tw, hw, hE⟩ := hall p (List.mem_cons_self p ps)
    unfold settleBets
    rw [settleBet_cffalse round st p es tw hw hE]
    exact ih st (fun q hq => hall q (List.mem_cons_of_mem p hq))

/-- Re-applying the same FR result only restamps frResultTime. -/
theorem applyResultUpdate_again (now1 now2 v : Int) (r : Round) :
    applyResultUpdate now2 (some v) none (applyResultUpdate now1 (some v) none r)
      = { applyResultUpdate now1 (some v) none r with frResultTime := some now2 } := by
  unfold applyResultUpdate
  rcases hsr : r.srResult with _ | w <;> simp [hsr]

/-- The result route, fault-free, on a valid FR submission: it is the
settlement pass over the saved round (next-round creation contributes
nothing, see autoCreate_id). -/
theorem recordResult_eq (now : Int) (db : DB) (rid : Nat) (r : Round) (v : Int)
    (hr : findRound db rid = some r) (h0 : 0 ≤ v) (h99 : v ≤ 99) :
    recordResultRoute none now db rid (some v) none
      = (calculateWinners none (saveRound db (applyResultUpdate now (some v) none r))
           (applyResultUpdate now (some v) none r),
         RouteResult.ok "Results updated and winners calculated") := by
  unfold recordResultRoute
  rw [hr]
  have hbad : badResult (some v) = false := by
    unfold badResult
    simp only [Bool.or_eq_false_iff, decide_eq_false_iff_not]
    omega
  have hb2 : badResult none = false := rfl
  simp only [hbad, hb2, Bool.false_eq_true, if_false]
  rw [autoCreate_id]
  simp

/-- A member of the replaced rounds list carrying the replaced id is the
replacement itself. -/
theorem mem_replace_id (l : List Round) (r' : Round) (y : Round)
    (hy : y ∈ l.map (fun x => if x.id = r'.id then r' else x)) (hid : y.id = r'.id) :
    y = r' := by
  obtain ⟨x, hx, hxe⟩ := List.mem_map.mp hy
  by_cases h : x.id = r'.id
  · rw [if_pos h] at hxe
    exact hxe.symm
  · rw [if_neg h] at hxe
    subst hxe
    exact absurd hid h

/-- C3 amended: calling recordResult twice in succession with the same FR
value leaves bets, transactions, balances, houses and the id counter of
the store exactly as after the first call, and changes the Round only by
restamping frResultTime to the second call's time; only Bets still
pending are considered, and a Bet settled won/lost by the first call is
excluded from the second pass.  (Hypotheses: the round exists, the value
is in range, bet ids are distinct, and the pending bets of the round
evaluate without a thrown exception under the updated round.) -/
theorem recordResult_idempotent_amended (db : DB) (rid : Nat) (r : Round)
    (v now1 now2 : Int)
    (hr : findRound db rid = some r) (h0 : 0 ≤ v) (h99 : v ≤ 99)
    (hnd : (db.bets.map Bet.id).Nodup)
    (hok : EvalOkDB (applyResultUpdate now1 (some v) none r) db) :
    ((recordResultRoute none now2
        (recordResultRoute none now1 db rid (some v) none).1 rid (some v) none).1.bets
      = (recordResultRoute none now1 db rid (some v) none).1.bets)
    ∧ ((recordResultRoute none now2
        (recordResultRoute none now1 db rid (some v) none).1 rid (some v) none).1.transactions
      = (recordResultRoute none now1 db rid (some v) none).1.transactions)
    ∧ ((recordResultRoute none now2
        (recordResultRoute none now1 db rid (some v) none).1 rid (some v) none).1.users
      = (recordResultRoute none now1 db rid (some v) none).1.users)
    ∧ ((recordResultRoute none now2
        (recordResultRoute none now1 db rid (some v) none).1 rid (some v) none).1.houses
      = (recordResultRoute none now1 db rid (some v) none).1.houses)
    ∧ ((recordResultRoute none now2
        (recordResultRoute none now1 db rid (some v) none).1 rid (some v) none).1.nextId
      = (recordResultRoute none now1 db rid (some v) none).1.nextId)
    ∧ ((recordResultRoute none now2
        (recordResultRoute none now1 db rid (some v) none).1 rid (some v) none).1.rounds
      = (recordResultRoute none now1 db rid (some v) none).1.rounds.map
          (fun x => if x.id = rid then { x with frResultTime := some now2 } else x)) := by
  have hridr : r.id = rid := by simpa using List.find?_some hr
  have h1 := recordResult_eq now1 db rid r v hr h0 h99
  set r' := applyResultUpdate now1 (some v) none r with hrpdef
  set db1 := saveRound db r' with hdb1def
  have hIdr' : r'.id = rid := by
    rw [hrpdef, applyResultUpdate_id]
    exact hridr
  set P1 := (db1.bets.filter
      (fun b => decide (b.round = r'.id ∧ b.status = BetStatus.pending))).map
      (fun b => (b, findHouse db1 b.house)) with hP1
  have hok1 : ∀ p ∈ P1, isOkE (evalEntries r' p.2 p.1.entries) = true := by
    intro p hp
    rw [hP1] at hp
    obtain ⟨b, hbf, rfl⟩ := List.mem_map.mp hp
    have hbl : b ∈ db.bets := List.mem_of_mem_filter hbf
    have hpred := List.of_mem_filter hbf
    rw [decide_eq_true_eq] at hpred
    exact hok b hbl hpred.2 hpred.1
  have hpw1 : List.Pairwise (fun q1 q2 => q1.1.id ≠ q2.1.id) P1 := by
    rw [hP1]
    apply List.pairwise_map.mpr
    have hpw0 : List.Pairwise (fun a b => a.id ≠ b.id) db.bets := List.pairwise_map.mp hnd
    exact List.Pairwise.sublist (List.filter_sublist _) hpw0
  obtain ⟨st1, hloop1, hids1, hpend1, hfin1⟩ :=
    settleBets_run r' P1 { db := db1, k := 1 } hok1 hpw1
  have hcw1 : calculateWinners none db1 r' = st1.db := by
    show (passResult (settleBets none r' { db := db1, k := 1 } P1)).db = st1.db
    rw [hloop1]
    rfl
  have hframe1 := settleBets_frame none r' P1 { db := db1, k := 1 }
  rw [hloop1] at hframe1
  simp only [passResult] at hframe1
  have hr2 : findRound st1.db rid = some r' := by
    unfold findRound
    rw [hframe1.1]
    have h2' := findRound_saveRound db r' r (by rw [hIdr']; exact hr)
    rw [hIdr'] at h2'
    unfold findRound saveRound at h2'
    exact h2'
  have h2 := recordResult_eq now2 st1.db rid r' v hr2 h0 h99
  set r2 := applyResultUpdate now2 (some v) none r' with hr2def
  have hagain : r2 = { r' with frResultTime := some now2 } := by
    rw [hr2def, hrpdef]
    exact applyResultUpdate_again now1 now2 v r
  have hr2fr : r2.frResult = r'.frResult := by rw [hagain]
  have hr2sr : r2.srResult = r'.srResult := by rw [hagain]
  have hr2id : r2.id = r'.id := by rw [hagain]
  set P2 := ((saveRound st1.db r2).bets.filter
      (fun b => decide (b.round = r2.id ∧ b.status = BetStatus.pending))).map
      (fun b => (b, findHouse (saveRound st1.db r2) b.house)) with hP2
  have hall2 : ∀ p ∈ P2, ∃ es tw hw,
      evalEntries r2 p.2 p.1.entries = Except.ok (es, tw, hw, false) := by
    intro p hp
    rw [hP2] at hp
    obtain ⟨b, hbf, rfl⟩ := List.mem_map.mp hp
    have hbl : b ∈ st1.db.bets := List.mem_of_mem_filter hbf
    have hpred := List.of_mem_filter hbf
    rw [decide_eq_true_eq] at hpred
    have hbdb1 : b ∈ db.bets := hpend1 b hbl hpred.2
    have hround' : b.round = r'.id := by
      have := hpred.1
      rw [hr2id] at this
      exact this
    have hokb := hok b hbdb1 hpred.2 hround'
    rcases hEb : evalEntries r' (findHouse db b.house) b.entries with ⟨⟩ | ⟨es, tw, hw, cf⟩
    · rw [hEb] at hokb
      simp [isOkE] at hokb
    · have hhcong : findHouse (saveRound st1.db r2) b.house = findHouse db b.house :=
        findHouse_congr st1.db db1 hframe1.2.1 b.house
      have hev2 : evalEntries r2 (findHouse (saveRound st1.db r2) b.house) b.entries
          = Except.ok (es, tw, hw, cf) := by
        rw [hhcong, evalEntries_congr r2 r' hr2fr hr2sr _ b.entries, hEb]
      by_cases hcf : cf = true
      · exfalso
        subst hcf
        have hbinP1 : (b, findHouse db1 b.house) ∈ P1 := by
          rw [hP1]
          apply List.mem_map_of_mem
          apply List.mem_filter.mpr
          refine ⟨hbdb1, ?_⟩
          rw [decide_eq_true_eq]
          exact ⟨hround', hpred.2⟩
        have hnd1 : (st1.db.bets.map Bet.id).Nodup := by
          rw [hids1]
          exact hnd
        have hfb : findBet st1.db b.id = some b :=
          find?_bet_mem_nodup st1.db.bets b hbl hnd1
        exact hfin1 _ hbinP1 es tw hw hEb b hfb hpred.2
      · have hcffalse : cf = false := by
          cases cf
          · rfl
          · exact absurd rfl hcf
        subst hcffalse
        exact ⟨es, tw, hw, hev2⟩
  have hnoop := settleBets_noop r2 P2 { db := saveRound st1.db r2, k := 1 } hall2
  have hcw2 : calculateWinners none (saveRound st1.db r2) r2 = saveRound st1.db r2 := by
    show (passResult (settleBets none r2 { db := saveRound st1.db r2, k := 1 } P2)).db
        = saveRound st1.db r2
    rw [hnoop]
    rfl
  have hs1 : (recordResultRoute none now1 db rid (some v) none).1 = st1.db := by
    rw [h1]
    exact hcw1
  have hs2 : (recordResultRoute none now2 st1.db rid (some v) none).1
      = saveRound st1.db r2 := by
    rw [h2]
    exact hcw2
  rw [hs1, hs2]
  refine ⟨rfl, rfl, rfl, rfl, rfl, ?_⟩
  show st1.db.rounds.map (fun x => if x.id = r2.id then r2 else x)
      = st1.db.rounds.map (fun x => if x.id = rid then { x with frResultTime := some now2 } else x)
  apply List.map_congr_left
  intro x hx
  have hxdb1 : x ∈ db1.rounds := by
    rw [← hframe1.1]
    exact hx
  by_cases hxid : x.id = rid
  · have hxr : x = r' := by
      apply mem_replace_id db.rounds r' x hxdb1
      rw [hxid]
      exact hIdr'.symm
    rw [hxr, if_pos (by rw [hr2id]), if_pos hIdr']
    exact hagain
  · rw [if_neg (by rw [hr2id, hIdr']; exact hxid), if_neg hxid]

/-- Witness for the amended C3 idempotence theorem: on the Scenario A
store, recording FR = 34 at t = 150 and again at t = 160 leaves the
transaction log of the first call unchanged. -/
theorem recordResult_idempotent_amended_witness :
    (recordResultRoute none 160
        (recordResultRoute none 150 dbA 2 (some 34) none).1 2 (some 34) none).1.transactions
      = (recordResultRoute none 150 dbA 2 (some 34) none).1.transactions :=
  (recordResult_idempotent_amended dbA 2 roundA 34 150 160 rfl (by decide) (by decide)
    (by decide) (by unfold EvalOkDB; decide)).2.1
